import Mathlib

/-
Shallow embedding of the chair-flying session engine (chair_flying.py):
maneuver catalog and pool filtering, mode-aware random selection,
completion bookkeeping, permanent skip, remaining-count display,
configuration validation, and the persisted maneuver history.
Machine randomness is made explicit: each call that draws from the
process-wide generator takes the drawn value as an argument
(an index for a uniform list choice, a rational in [0,1) for the
probability draw).
-/

namespace ChairFlying

/-- A phase of a maneuver: a dict with a "name" and an optional
"description" (`select_phase` / `display_maneuver`). -/
structure Phase where
  name : String
  description : Option String
deriving DecidableEq, Repr

/-- A maneuver: an attribute map with a "name" and optional "type",
"kind", "description" and "phases" attributes.  Absent attributes are
`none`; the code reads them with `.get(key, default)`. -/
structure Maneuver where
  name : String
  mtype : Option String
  kind : Option String
  description : Option String
  phases : List Phase
deriving DecidableEq, Repr

/-- Python's `str.lower()`, character by character (kernel-evaluable,
unlike `String.toLower` whose core implementation is irreducible). -/
def str_lower (s : String) : String :=
  String.mk (s.data.map Char.toLower)

/-- The code's emergency test: `m.get("type", "").lower() == "emergency"`. -/
def Maneuver.isEmergency (m : Maneuver) : Bool :=
  str_lower (m.mtype.getD "") == "emergency"

/-- The code's kind test: `m.get("kind", "").lower() == kind`. -/
def Maneuver.kindIs (m : Maneuver) (kind : String) : Bool :=
  str_lower (m.kind.getD "") == kind

/-- Syntactic decidable equality on computation results. -/
instance {ε α : Type} [DecidableEq ε] [DecidableEq α] :
    DecidableEq (Except ε α)
  | Except.error e1, Except.error e2 =>
    if h : e1 = e2 then Decidable.isTrue (h ▸ rfl)
    else Decidable.isFalse (fun hh => h (Except.error.inj hh))
  | Except.error _, Except.ok _ =>
    Decidable.isFalse (fun hh => Except.noConfusion hh)
  | Except.ok _, Except.error _ =>
    Decidable.isFalse (fun hh => Except.noConfusion hh)
  | Except.ok a1, Except.ok a2 =>
    if h : a1 = a2 then Decidable.isTrue (h ▸ rfl)
    else Decidable.isFalse (fun hh => h (Except.ok.inj hh))

/-- The pool computed by `ChairFlying.filter_maneuvers` before its final
emptiness check: filter by the selected kind (emergency-only keeps only
emergencies; a specific kind keeps emergencies plus matching kinds; "all"
keeps everything), then drop emergencies when the user excluded them and
the mode is not emergency-only. -/
def filter_pool (all_maneuvers : List Maneuver) (maneuver_kind : String)
    (include_emergencies : Bool) : List Maneuver :=
  let filtered :=
    if maneuver_kind == "emergency" then
      all_maneuvers.filter (fun m => m.isEmergency)
    else if maneuver_kind != "all" then
      all_maneuvers.filter (fun m => m.isEmergency || m.kindIs maneuver_kind)
    else
      all_maneuvers
  if !include_emergencies && maneuver_kind != "emergency" then
    filtered.filter (fun m => !m.isEmergency)
  else
    filtered

/-- `ChairFlying.filter_maneuvers`: raises `ValueError` exactly when the
filtered pool is empty, otherwise installs the pool. -/
def filter_maneuvers (all_maneuvers : List Maneuver) (maneuver_kind : String)
    (include_emergencies : Bool) : Except String (List Maneuver) :=
  let filtered := filter_pool all_maneuvers maneuver_kind include_emergencies
  if filtered.isEmpty then
    Except.error "No maneuvers match your selection criteria. Please adjust your preferences or add more maneuvers."
  else
    Except.ok filtered

/-- A raw scalar appearing as the value of `emergency_probability` in the
configuration dictionary: either a number (Python int/float, embedded as
a rational) or a non-numeric value (embedded as its text). -/
inductive ConfigValue where
  | num (q : ℚ)
  | text (s : String)
deriving DecidableEq, Repr

/-- The raw configuration dictionary, restricted to the keys
`Configuration._validate_and_set` reads.  `none` means the key is absent. -/
structure RawConfig where
  maneuvers_file : Option String
  interval_min_sec : Option ℚ
  interval_max_sec : Option ℚ
  show_next_maneuver_time : Option Bool
  show_maneuver_type : Option Bool
  show_maneuver_description : Option Bool
  emergency_probability : Option ConfigValue
deriving DecidableEq, Repr

/-- The validated configuration produced by `Configuration.__init__`. -/
structure Configuration where
  maneuvers_file : String
  interval_min_sec : Option ℚ
  interval_max_sec : Option ℚ
  show_next_maneuver_time : Bool
  show_maneuver_type : Bool
  show_maneuver_description : Bool
  emergency_probability : Option ℚ
deriving DecidableEq, Repr

/-- The `emergency_probability` clause of `_validate_and_set`: absent is
fine, a non-number raises, a number outside [0,100] raises. -/
def check_emergency_probability (v : Option ConfigValue) :
    Except String (Option ℚ) :=
  match v with
  | none => Except.ok none
  | some (ConfigValue.text _) =>
      Except.error "emergency_probability must be a number"
  | some (ConfigValue.num p) =>
      if p < 0 ∨ p > 100 then
        Except.error "emergency_probability must be between 0 and 100"
      else
        Except.ok (some p)

/-- `Configuration._validate_and_set`: requires `maneuvers_file`; the two
interval bounds must be given together or not at all, with min ≤ max;
display flags default to true; `emergency_probability`, when present,
must be a number in [0,100]. -/
def validate_and_set (config : RawConfig) : Except String Configuration :=
  match config.maneuvers_file with
  | none => Except.error "Configuration missing required key: maneuvers_file"
  | some mf =>
    if config.interval_min_sec.isSome != config.interval_max_sec.isSome then
      Except.error "Both interval_min_sec and interval_max_sec must be provided together, or neither (for manual mode)"
    else
      match config.interval_min_sec, config.interval_max_sec with
      | some mn, some mx =>
        if mn > mx then
          Except.error "interval_min_sec must be less than or equal to interval_max_sec"
        else
          (check_emergency_probability config.emergency_probability).map
            (fun prob =>
              { maneuvers_file := mf
                interval_min_sec := some mn
                interval_max_sec := some mx
                show_next_maneuver_time := config.show_next_maneuver_time.getD true
                show_maneuver_type := config.show_maneuver_type.getD true
                show_maneuver_description := config.show_maneuver_description.getD true
                emergency_probability := prob })
      | _, _ =>
          (check_emergency_probability config.emergency_probability).map
            (fun prob =>
              { maneuvers_file := mf
                interval_min_sec := none
                interval_max_sec := none
                show_next_maneuver_time := config.show_next_maneuver_time.getD true
                show_maneuver_type := config.show_maneuver_type.getD true
                show_maneuver_description := config.show_maneuver_description.getD true
                emergency_probability := prob })

/-- `Configuration.is_manual_mode`: no interval configuration. -/
def Configuration.is_manual_mode (c : Configuration) : Bool :=
  c.interval_min_sec.isNone && c.interval_max_sec.isNone

/-- Session structure: `'indefinite'` or `'fixed'`. -/
inductive SessionMode where
  | indefinite
  | fixed
deriving DecidableEq, Repr

/-- How emergencies appear in a fixed-length session: `'all'` or
`'random'` (`None` when not applicable). -/
inductive EmergencyMode where
  | all
  | random
deriving DecidableEq, Repr

/-- The mutable session fields of the `ChairFlying` object that the
selection, completion and skip operations touch. -/
structure SessionState where
  maneuvers : List Maneuver
  completed_maneuvers : List Maneuver
  skipped_maneuvers : List Maneuver
  session_mode : SessionMode
  emergency_mode : Option EmergencyMode
deriving DecidableEq, Repr

/-- `random.choice(l)` with the drawn index made explicit: position
`i % l.length` of `l` (`none` only on an empty list). -/
def choice {α : Type} (l : List α) (i : ℕ) : Option α :=
  l.get? (i % l.length)

/-- `ChairFlying._select_with_probability`: partition into emergencies
(`maneuvers.filter isEmergency`) and non-emergencies; with only one class
present fall back to a uniform choice; otherwise compare the uniform draw
`r` against prob/100. -/
def select_with_probability (maneuvers : List Maneuver) (emergency_prob : ℚ)
    (r : ℚ) (i : ℕ) : Option Maneuver :=
  if (maneuvers.filter (fun m => m.isEmergency)).isEmpty
      || (maneuvers.filter (fun m => !m.isEmergency)).isEmpty then
    choice maneuvers i
  else if r < emergency_prob / 100 then
    choice (maneuvers.filter (fun m => m.isEmergency)) i
  else
    choice (maneuvers.filter (fun m => !m.isEmergency)) i

/-- The `available` list computed inside `select_maneuver`: in fixed mode
the maneuvers not yet completed, otherwise the whole active pool. -/
def available_maneuvers (st : SessionState) : List Maneuver :=
  if st.session_mode == SessionMode.fixed then
    st.maneuvers.filter (fun m => !st.completed_maneuvers.contains m)
  else
    st.maneuvers

/-- `ChairFlying.select_maneuver`: raises on an empty pool; in fixed mode
restricts to not-yet-completed maneuvers and returns `None` (here
`Except.ok none`) when none remain; then draws uniformly when in fixed
mode with all emergencies or when no probability is configured, and with
`_select_with_probability` otherwise. -/
def select_maneuver (st : SessionState) (emergency_probability : Option ℚ)
    (r : ℚ) (i : ℕ) : Except String (Option Maneuver) :=
  if st.maneuvers.isEmpty then
    Except.error "No maneuvers configured!"
  else if st.session_mode == SessionMode.fixed
      && (available_maneuvers st).isEmpty then
    Except.ok none
  else if st.session_mode == SessionMode.fixed
      && st.emergency_mode == some EmergencyMode.all then
    Except.ok (choice (available_maneuvers st) i)
  else
    match emergency_probability with
    | none => Except.ok (choice (available_maneuvers st) i)
    | some p =>
        Except.ok (select_with_probability (available_maneuvers st) p r i)

/-- `ChairFlying.select_phase`: `None` for a maneuver without phases,
otherwise a uniform choice among its phases. -/
def select_phase (m : Maneuver) (i : ℕ) : Option Phase :=
  if m.phases.isEmpty then none else choice m.phases i

/-- `ChairFlying.mark_maneuver_completed`: in fixed mode, append the
maneuver to `completed_maneuvers` unless already present. -/
def mark_maneuver_completed (st : SessionState) (m : Maneuver) : SessionState :=
  if st.session_mode == SessionMode.fixed
      && !st.completed_maneuvers.contains m then
    { st with completed_maneuvers := st.completed_maneuvers ++ [m] }
  else
    st

/-- `ChairFlying.show_remaining_count`: in fixed mode print
`len(self.maneuvers) - len(self.completed_maneuvers)` when positive.
The returned value is the printed count (`none` when nothing prints). -/
def show_remaining_count (st : SessionState) : Option ℤ :=
  if st.session_mode == SessionMode.fixed then
    let remaining : ℤ :=
      (st.maneuvers.length : ℤ) - (st.completed_maneuvers.length : ℤ)
    if remaining > 0 then some remaining else none
  else
    none

/-- `ChairFlying.permanently_skip_maneuver`: append to the skipped list,
remove every structurally-equal occurrence from the active pool, and
return whether any maneuvers remain (`false` signals termination). -/
def permanently_skip_maneuver (st : SessionState) (m : Maneuver) :
    SessionState × Bool :=
  let st2 : SessionState :=
    { st with
      skipped_maneuvers := st.skipped_maneuvers ++ [m]
      maneuvers := st.maneuvers.filter (fun x => x != m) }
  (st2, !st2.maneuvers.isEmpty)

/-- A session-state-mutating operation of the interaction loop: the
completion bookkeeping shared by complete/review/skip responses, or a
confirmed permanent skip. -/
inductive SessionOp where
  | mark (m : Maneuver)
  | permskip (m : Maneuver)
deriving DecidableEq, Repr

/-- Apply one session operation to the state. -/
def apply_op (st : SessionState) (op : SessionOp) : SessionState :=
  match op with
  | SessionOp.mark m => mark_maneuver_completed st m
  | SessionOp.permskip m => (permanently_skip_maneuver st m).fst

/-- Apply a sequence of session operations in order. -/
def apply_ops (st : SessionState) (ops : List SessionOp) : SessionState :=
  ops.foldl apply_op st

/-- `ChairFlying.get_user_response`: the set of accepted responses, as
shown and validated — `n` replaces `c` when `show_next` is set. -/
def get_user_response_options (show_next : Bool) (show_complete : Bool) :
    List String :=
  let valid_responses := ["f", "s", "p", "q"]
  if show_next then valid_responses ++ ["n"]
  else if show_complete then valid_responses ++ ["c"]
  else valid_responses

/-- Whether a maneuver has phases, as computed in `ChairFlying.run`. -/
def has_phases (m : Maneuver) : Bool :=
  !m.phases.isEmpty

/-- The options offered in the inner loop of `ChairFlying.run` for the
current maneuver and phase: `show_next` is set exactly when the maneuver
has phases and no phase is selected yet, and `show_complete` is its
negation. -/
def offered_options (m : Maneuver) (current_phase : Option Phase) :
    List String :=
  let show_next := has_phases m && current_phase.isNone
  get_user_response_options show_next (!show_next)

/-- One persisted history record, as built by
`ManeuverTracker.record_maneuver`. -/
structure HistoryEntry where
  timestamp : String
  maneuver : String
  mtype : String
  status : String
  phase : Option String
deriving DecidableEq, Repr

/-- The entry dict built by `record_maneuver`: current timestamp, the
maneuver's name, its type defaulting to "normal", the status, and the
phase's name when a phase was supplied. -/
def mk_entry (timestamp : String) (m : Maneuver) (status : String)
    (phase : Option Phase) : HistoryEntry :=
  { timestamp := timestamp
    maneuver := m.name
    mtype := m.mtype.getD "normal"
    status := status
    phase := phase.map (fun p => p.name) }

/-- `ManeuverTracker.record_maneuver` on the in-memory history: append
the new entry (the file is then rewritten from the full history). -/
def record_maneuver (history : List HistoryEntry) (timestamp : String)
    (m : Maneuver) (status : String) (phase : Option Phase) :
    List HistoryEntry :=
  history ++ [mk_entry timestamp m status phase]

/-- The JSON object written for one entry: its key/value pairs in the
insertion order of `record_maneuver` ("phase" present only when a phase
was supplied). -/
def entry_fields (e : HistoryEntry) : List (String × String) :=
  [("timestamp", e.timestamp), ("maneuver", e.maneuver),
   ("type", e.mtype), ("status", e.status)]
    ++ (match e.phase with
        | some p => [("phase", p)]
        | none => [])

/-- Key lookup in a JSON object (first match). -/
def lookup_field (fields : List (String × String)) (key : String) :
    Option String :=
  match fields with
  | [] => none
  | (k, v) :: rest => if k == key then some v else lookup_field rest key

/-- Reading one persisted entry back into its record form; `none` on a
malformed object (missing required key). -/
def parse_entry (fields : List (String × String)) : Option HistoryEntry :=
  match lookup_field fields "timestamp", lookup_field fields "maneuver",
      lookup_field fields "type", lookup_field fields "status" with
  | some ts, some mv, some ty, some st =>
      some { timestamp := ts, maneuver := mv, mtype := ty, status := st,
             phase := lookup_field fields "phase" }
  | _, _, _, _ => none

/-- `ManeuverTracker.save_history`: the file contents after a write —
the full history serialized as an array of objects. -/
def save_history (history : List HistoryEntry) :
    List (List (String × String)) :=
  history.map entry_fields

/-- `ManeuverTracker.load_history` on a well-formed store: read every
persisted object back, in order (`none` on a malformed store). -/
def load_history (file : List (List (String × String))) :
    Option (List HistoryEntry) :=
  match file with
  | [] => some []
  | fields :: rest =>
    match parse_entry fields, load_history rest with
    | some e, some h => some (e :: h)
    | _, _ => none

/-- One `record()` call: the timestamp drawn at call time plus the call's
arguments. -/
structure RecordCall where
  timestamp : String
  m : Maneuver
  status : String
  phase : Option Phase

/-- Replay a sequence of `record()` calls on a fresh (empty) store. -/
def replay (calls : List RecordCall) : List HistoryEntry :=
  calls.foldl
    (fun h c => record_maneuver h c.timestamp c.m c.status c.phase) []

/-- Modelled from the spec (§4.4 Selector, candidate set): in fixed mode
the candidates are `active_pool \ completed`; in indefinite mode the
candidate set is `active_pool` unconditionally. -/
def spec_candidates (st : SessionState) : List Maneuver :=
  if st.session_mode == SessionMode.fixed then
    st.maneuvers.filter (fun m => !st.completed_maneuvers.contains m)
  else
    st.maneuvers

/-- Modelled from the spec (§4.4 Selector, choice rule): uniform draw
when in fixed mode with all emergencies or when no probability is set;
otherwise partition the candidates, fall back to a uniform draw when a
partition is empty, and else pick from the emergencies exactly when the
uniform value is below prob/100. -/
def spec_choice (mode : SessionMode) (emode : Option EmergencyMode)
    (prob : Option ℚ) (candidates : List Maneuver) (r : ℚ) (i : ℕ) :
    Option Maneuver :=
  if (mode == SessionMode.fixed && emode == some EmergencyMode.all)
      || prob.isNone then
    choice candidates i
  else
    let es := candidates.filter (fun m => m.isEmergency)
    let ns := candidates.filter (fun m => !m.isEmergency)
    if es.isEmpty || ns.isEmpty then
      choice candidates i
    else if r < (prob.getD 0) / 100 then
      choice es i
    else
      choice ns i

/-! Concrete maneuvers, mirroring the repository's test fixtures. -/

/-- A commercial-kind maneuver. -/
def chandelles : Maneuver :=
  ⟨"Chandelles", some "maneuver", some "commercial", none, []⟩

/-- A commercial-kind maneuver. -/
def lazyEights : Maneuver :=
  ⟨"Lazy Eights", some "maneuver", some "commercial", none, []⟩

/-- A commercial-kind maneuver. -/
def steepTurns : Maneuver :=
  ⟨"Steep Turns", some "maneuver", some "commercial", none, []⟩

/-- An emergency maneuver. -/
def engineFailure : Maneuver :=
  ⟨"Engine Failure", some "emergency", none, none, []⟩

/-- An emergency maneuver. -/
def electricalFire : Maneuver :=
  ⟨"Electrical Fire", some "emergency", none, none, []⟩

/-- A private-kind maneuver. -/
def stallRecovery : Maneuver :=
  ⟨"Stall Recovery", some "maneuver", some "private", none, []⟩

/-- A phase named "Phase 1". -/
def phase1 : Phase := ⟨"Phase 1", none⟩

/-- A phase named "Phase 2". -/
def phase2 : Phase := ⟨"Phase 2", none⟩

/-- An emergency maneuver with two phases. -/
def engineFire : Maneuver :=
  ⟨"Engine Fire", some "emergency", none, none, [phase1, phase2]⟩

/-- The remaining-count scenario of the spec: a fixed-length session over
3 non-emergency and 2 emergency maneuvers, `emergency_mode = random`,
with one non-emergency maneuver already resolved. -/
def remainingScenarioRandom : SessionState :=
  ⟨[chandelles, lazyEights, steepTurns, engineFailure, electricalFire],
   [chandelles], [], SessionMode.fixed, some EmergencyMode.random⟩

/-- The same scenario with `emergency_mode = all`. -/
def remainingScenarioAll : SessionState :=
  ⟨[chandelles, lazyEights, steepTurns, engineFailure, electricalFire],
   [chandelles], [], SessionMode.fixed, some EmergencyMode.all⟩

/-- A session whose active pool holds two structurally identical
maneuvers (the catalog does not enforce uniqueness). -/
def duplicatePoolSession : SessionState :=
  ⟨[steepTurns, steepTurns], [], [], SessionMode.indefinite, none⟩

/-- A two-maneuver indefinite session. -/
def twoManeuverSession : SessionState :=
  ⟨[chandelles, steepTurns], [], [], SessionMode.indefinite, none⟩

/-- The two `record()` calls of the spec's history round-trip example. -/
def exampleCalls : List RecordCall :=
  [⟨"2024-01-01T12:00:00", stallRecovery, "completed", none⟩,
   ⟨"2024-01-01T12:05:00", engineFire, "review", some phase1⟩]

/-- A maneuver without a "type" attribute. -/
def noTypeManeuver : Maneuver :=
  ⟨"Basic Maneuver", none, none, none, []⟩

/-! Helper lemmas. -/

/-- The filtered pool in emergency-only mode: just the emergencies. -/
theorem filter_pool_emergency_only (c : List Maneuver) (inc : Bool) :
    filter_pool c "emergency" inc = c.filter (fun m => m.isEmergency) := by
  simp [filter_pool]

/-- The filtered pool for kind "all": the catalog, with emergencies
removed when excluded. -/
theorem filter_pool_all_kinds (c : List Maneuver) (inc : Bool) :
    filter_pool c "all" inc =
      if inc then c else c.filter (fun m => !m.isEmergency) := by
  cases inc <;> simp [filter_pool]

/-- The filtered pool for a specific kind: emergencies ride along, and
are then removed when excluded. -/
theorem filter_pool_specific (c : List Maneuver) (kind : String) (inc : Bool)
    (h1 : kind ≠ "emergency") (h2 : kind ≠ "all") :
    filter_pool c kind inc =
      if inc then c.filter (fun m => m.isEmergency || m.kindIs kind)
      else (c.filter (fun m => m.isEmergency || m.kindIs kind)).filter
        (fun m => !m.isEmergency) := by
  cases inc <;> simp [filter_pool, h1, h2]

/-- Excluding emergencies filters the included pool (any non-emergency
kind selection). -/
theorem filter_pool_false_eq_filter (c : List Maneuver) (kind : String)
    (h1 : kind ≠ "emergency") :
    filter_pool c kind false =
      (filter_pool c kind true).filter (fun m => !m.isEmergency) := by
  by_cases h2 : kind = "all"
  · subst h2
    simp [filter_pool_all_kinds]
  · simp [filter_pool_specific c kind _ h1 h2]

/-- C2: for every catalog, selected kind, and include-emergencies flag,
the pool filter keeps exactly the emergencies in emergency-only mode, the
whole catalog for kind "all", and emergencies plus kind-matching members
for a specific kind; excluding emergencies (outside emergency-only mode)
then removes exactly the emergency-typed entries; and the filter fails
with the empty-selection error exactly when the resulting pool is empty.
("type is emergency" is the code's case-insensitive, default-empty test.) -/
theorem C2_filter_maneuvers_characterization (catalog : List Maneuver)
    (kind : String) (inc : Bool) :
    ((kind = "emergency" →
        ∀ m, m ∈ filter_pool catalog kind inc ↔
          m ∈ catalog ∧ m.isEmergency = true)
      ∧ (kind = "all" →
        ∀ m, m ∈ filter_pool catalog kind inc ↔
          m ∈ catalog ∧ (inc = false → m.isEmergency = false))
      ∧ (kind ≠ "emergency" → kind ≠ "all" →
        ∀ m, m ∈ filter_pool catalog kind inc ↔
          m ∈ catalog ∧ (m.isEmergency = true ∨ m.kindIs kind = true)
            ∧ (inc = false → m.isEmergency = false))
      ∧ ((∃ e, filter_maneuvers catalog kind inc = Except.error e) ↔
          filter_pool catalog kind inc = [])) := by
  refine ⟨?_, ?_, ?_, ?_⟩
  · rintro rfl m
    simp [filter_pool_emergency_only, List.mem_filter]
  · rintro rfl m
    cases inc <;> simp [filter_pool_all_kinds, List.mem_filter]
  · intro h1 h2 m
    cases inc <;>
      simp [filter_pool_specific catalog kind _ h1 h2, List.mem_filter,
        and_assoc] <;>
      tauto
  · constructor
    · rintro ⟨e, he⟩
      by_cases h : (filter_pool catalog kind inc).isEmpty
      · exact List.isEmpty_iff.mp h
      · simp [filter_maneuvers, h] at he
    · intro h
      exact ⟨"No maneuvers match your selection criteria. Please adjust your preferences or add more maneuvers.",
        by simp [filter_maneuvers, h]⟩

/-- C2 witness: the characterization evaluated for kind "commercial" with
emergencies included, at a concrete commercial maneuver. -/
theorem C2_filter_maneuvers_characterization_witness :
    chandelles ∈ filter_pool [chandelles, engineFailure] "commercial" true ↔
      chandelles ∈ [chandelles, engineFailure]
        ∧ (chandelles.isEmergency = true
            ∨ chandelles.kindIs "commercial" = true)
        ∧ (true = false → chandelles.isEmergency = false) :=
  (C2_filter_maneuvers_characterization [chandelles, engineFailure]
    "commercial" true).2.2.1 (by decide) (by decide) chandelles

/-- C8 counterexample: in emergency-only mode the include flag is ignored
(`filter_maneuvers` only drops emergencies when the kind is not
"emergency"), so for the one-emergency catalog the two pools coincide and
their difference does not consist of the emergency-typed maneuvers. -/
theorem C8_difference_counterexample :
    ¬ ((engineFailure ∈ filter_pool [engineFailure] "emergency" true
          ∧ engineFailure ∉ filter_pool [engineFailure] "emergency" false) ↔
        (engineFailure ∈ filter_pool [engineFailure] "emergency" true
          ∧ engineFailure.isEmergency = true)) := by
  decide

/-- C8 (amended): for every catalog and kind, the emergencies-excluded
pool is a sublist (hence subset) of the emergencies-included pool; when
the kind is not emergency-only their difference consists exactly of the
emergency-typed members of the included pool; in emergency-only mode the
include flag has no effect and the two pools are equal. -/
theorem C8_filter_superset_amended (c : List Maneuver) (kind : String) :
    ((filter_pool c kind false).Sublist (filter_pool c kind true))
    ∧ (kind ≠ "emergency" →
        ∀ m, (m ∈ filter_pool c kind true
                ∧ m ∉ filter_pool c kind false) ↔
          (m ∈ filter_pool c kind true ∧ m.isEmergency = true))
    ∧ (kind = "emergency" →
        filter_pool c kind false = filter_pool c kind true) := by
  by_cases h1 : kind = "emergency"
  · subst h1
    refine ⟨?_, fun h => absurd rfl h, fun _ => ?_⟩
    · rw [filter_pool_emergency_only, filter_pool_emergency_only]
    · rw [filter_pool_emergency_only, filter_pool_emergency_only]
  · rw [filter_pool_false_eq_filter c kind h1]
    refine ⟨List.filter_sublist _, fun _ m => ?_, fun h => absurd h h1⟩
    cases hm : m.isEmergency <;> simp [List.mem_filter, hm]

/-- C8 witness: the amended difference characterization evaluated for
kind "commercial" at a concrete non-emergency maneuver. -/
theorem C8_filter_superset_amended_witness :
    (chandelles ∈ filter_pool [chandelles, engineFailure] "commercial" true
        ∧ chandelles ∉ filter_pool [chandelles, engineFailure]
            "commercial" false) ↔
      (chandelles ∈ filter_pool [chandelles, engineFailure] "commercial" true
        ∧ chandelles.isEmergency = true) :=
  (C8_filter_superset_amended [chandelles, engineFailure] "commercial").2.1
    (by decide) chandelles

/-- C1 (code bug): `show_remaining_count` computes
`len(self.maneuvers) - len(self.completed_maneuvers)` in fixed mode
regardless of `emergency_mode`.  In the spec's scenario (3 non-emergency
and 2 emergency maneuvers, one non-emergency resolved) the code reports 4
in `random` mode — where the claim, the spec, and the repository's own
test `test_show_remaining_count_fixed_random_emergencies` expect 2 — and
4 in `all` mode, where the claim also expects 4. -/
theorem C1_show_remaining_count_ignores_emergency_mode :
    show_remaining_count remainingScenarioRandom = some 4
    ∧ show_remaining_count remainingScenarioRandom ≠ some 2
    ∧ show_remaining_count remainingScenarioAll = some 4 := by
  refine ⟨by decide, by decide, by decide⟩

/-- Removing every occurrence of `m` shrinks a list by its count of `m`. -/
theorem length_filter_bne (l : List Maneuver) (m : Maneuver) :
    (l.filter (fun x => x != m)).length = l.length - l.count m := by
  induction l with
  | nil => rfl
  | cons x xs ih =>
    have hle := List.count_le_length (a := m) (l := xs)
    by_cases hx : x = m <;>
      simp [List.filter_cons, List.count_cons, hx, ih] <;> omega

/-- `m` is not among the survivors of its own removal. -/
theorem not_mem_filter_bne (l : List Maneuver) (m : Maneuver) :
    m ∉ l.filter (fun x => x != m) := by
  simp [List.mem_filter]

/-- The removal empties the pool exactly when every member equals `m`. -/
theorem filter_bne_eq_nil_iff (l : List Maneuver) (m : Maneuver) :
    l.filter (fun x => x != m) = [] ↔ ∀ x ∈ l, x = m := by
  simp [List.filter_eq_nil_iff]

/-- A list whose members all equal `m`, with `m` counted once, is `[m]`. -/
theorem eq_singleton_of_all_eq_of_count_one (l : List Maneuver)
    (m : Maneuver) (hall : ∀ x ∈ l, x = m) (hcount : l.count m = 1) :
    l = [m] := by
  have hlen : l.count m = l.length :=
    List.count_eq_length.mpr (fun b hb => (hall b hb).symm)
  have h1 : l.length = 1 := by omega
  obtain ⟨a, ha⟩ := List.length_eq_one.mp h1
  subst ha
  rw [hall a (by simp)]

/-- Completion bookkeeping does not touch the active pool. -/
theorem mark_maneuvers_eq (st : SessionState) (m : Maneuver) :
    (mark_maneuver_completed st m).maneuvers = st.maneuvers := by
  unfold mark_maneuver_completed
  split <;> rfl

/-- Every session operation only shrinks the active pool. -/
theorem apply_op_maneuvers_sublist (st : SessionState) (op : SessionOp) :
    (apply_op st op).maneuvers.Sublist st.maneuvers := by
  cases op with
  | mark m =>
    rw [apply_op, mark_maneuvers_eq]
  | permskip m =>
    exact List.filter_sublist _

/-- A maneuver outside the active pool never re-enters it. -/
theorem not_mem_apply_ops (st : SessionState) (m : Maneuver)
    (h : m ∉ st.maneuvers) (ops : List SessionOp) :
    m ∉ (apply_ops st ops).maneuvers := by
  induction ops generalizing st with
  | nil => exact h
  | cons op rest ih =>
    exact ih (apply_op st op)
      (fun hmem => h ((apply_op_maneuvers_sublist st op).subset hmem))

/-- C4 counterexample: with two structurally identical maneuvers in the
active pool, a confirmed permanent skip removes both of them, so the pool
does not shrink by exactly one element. -/
theorem C4_duplicate_pool_counterexample :
    ¬ ((permanently_skip_maneuver duplicatePoolSession
          steepTurns).fst.maneuvers.length
        = duplicatePoolSession.maneuvers.length - 1) := by
  decide

/-- C4 (amended): a confirmed permanent skip removes every
structurally-equal occurrence of the maneuver from `active_pool` and
nothing else — the pool shrinks by the maneuver's occurrence count, and
by exactly one element when the maneuver occurs exactly once; the removal
is irreversible for the remainder of the session (no later completion
bookkeeping or permanent skip re-admits it); and the operation signals
empty-pool session termination exactly when the resulting pool is empty —
in particular when the skipped maneuver was the last remaining member. -/
theorem C4_permanent_skip_amended (st : SessionState) (m : Maneuver) :
    m ∉ (permanently_skip_maneuver st m).fst.maneuvers
    ∧ (permanently_skip_maneuver st m).fst.maneuvers.length
        = st.maneuvers.length - st.maneuvers.count m
    ∧ (∀ x, x ≠ m →
        (x ∈ (permanently_skip_maneuver st m).fst.maneuvers ↔
          x ∈ st.maneuvers))
    ∧ (st.maneuvers.count m = 1 →
        (permanently_skip_maneuver st m).fst.maneuvers.length
          = st.maneuvers.length - 1)
    ∧ ((permanently_skip_maneuver st m).snd = false ↔
        (permanently_skip_maneuver st m).fst.maneuvers = [])
    ∧ (st.maneuvers = [m] → (permanently_skip_maneuver st m).snd = false)
    ∧ (∀ ops : List SessionOp,
        m ∉ (apply_ops (permanently_skip_maneuver st m).fst ops).maneuvers) := by
  refine ⟨not_mem_filter_bne _ _, length_filter_bne _ _, ?_, ?_, ?_, ?_, ?_⟩
  · intro x hx
    show x ∈ st.maneuvers.filter (fun y => y != m) ↔ x ∈ st.maneuvers
    simp [List.mem_filter, hx]
  · intro h1
    show (st.maneuvers.filter (fun x => x != m)).length = _
    rw [length_filter_bne, h1]
  · show (!(st.maneuvers.filter (fun x => x != m)).isEmpty) = false ↔ _
    rw [Bool.not_eq_false', List.isEmpty_iff]
    exact Iff.rfl
  · intro hl
    show (!(st.maneuvers.filter (fun x => x != m)).isEmpty) = false
    rw [Bool.not_eq_false', List.isEmpty_iff, filter_bne_eq_nil_iff, hl]
    intro x hx
    simpa using hx
  · intro ops
    exact not_mem_apply_ops _ _ (not_mem_filter_bne _ _) ops

/-- C4 witness: the amended statement evaluated both on a two-maneuver
pool holding the skipped maneuver exactly once (shrink by one,
occurrence-count hypothesis discharged) and on the duplicate pool, where
both occurrences disappear. -/
theorem C4_permanent_skip_amended_witness :
    (chandelles ∉ (permanently_skip_maneuver twoManeuverSession
        chandelles).fst.maneuvers
      ∧ (twoManeuverSession.maneuvers.count chandelles = 1
        ∧ (permanently_skip_maneuver twoManeuverSession
              chandelles).fst.maneuvers.length
            = twoManeuverSession.maneuvers.length - 1))
    ∧ (steepTurns ∉ (permanently_skip_maneuver duplicatePoolSession
        steepTurns).fst.maneuvers
      ∧ (permanently_skip_maneuver duplicatePoolSession
            steepTurns).fst.maneuvers.length
          = duplicatePoolSession.maneuvers.length
              - duplicatePoolSession.maneuvers.count steepTurns) :=
  ⟨⟨(C4_permanent_skip_amended twoManeuverSession chandelles).1,
    by decide,
    (C4_permanent_skip_amended twoManeuverSession chandelles).2.2.2.1
      (by decide)⟩,
   (C4_permanent_skip_amended duplicatePoolSession steepTurns).1,
   (C4_permanent_skip_amended duplicatePoolSession steepTurns).2.1⟩

/-- A uniform choice only returns members of the list. -/
theorem choice_mem {α : Type} {l : List α} {i : ℕ} {a : α}
    (h : choice l i = some a) : a ∈ l := by
  unfold choice at h
  exact List.get?_mem h

/-- A uniform choice from a nonempty list returns some member. -/
theorem choice_some {α : Type} (l : List α) (i : ℕ) (h : l ≠ []) :
    ∃ a, choice l i = some a ∧ a ∈ l := by
  have hlen : 0 < l.length := List.length_pos.mpr h
  have hlt : i % l.length < l.length := Nat.mod_lt _ hlen
  exact ⟨l.get ⟨i % l.length, hlt⟩, List.get?_eq_get hlt, List.get_mem _ _ _⟩

/-- The weighted selector over a nonempty list returns some member. -/
theorem select_with_probability_some (l : List Maneuver) (p r : ℚ) (i : ℕ)
    (h : l ≠ []) :
    ∃ a, select_with_probability l p r i = some a ∧ a ∈ l := by
  unfold select_with_probability
  split
  · exact choice_some l i h
  · next hne =>
    rw [Bool.or_eq_true, not_or] at hne
    obtain ⟨hes, hns⟩ := hne
    split
    · obtain ⟨a, ha, hmem⟩ :=
        choice_some (l.filter (fun m => m.isEmergency)) i
          (fun hnil => hes (by rw [hnil]; rfl))
      exact ⟨a, ha, (List.mem_filter.mp hmem).1⟩
    · obtain ⟨a, ha, hmem⟩ :=
        choice_some (l.filter (fun m => !m.isEmergency)) i
          (fun hnil => hns (by rw [hnil]; rfl))
      exact ⟨a, ha, (List.mem_filter.mp hmem).1⟩

/-- Fixed-mode candidates: the pool members not yet completed. -/
theorem mem_available_fixed (st : SessionState)
    (hfixed : st.session_mode = SessionMode.fixed) (m : Maneuver) :
    m ∈ available_maneuvers st ↔
      m ∈ st.maneuvers ∧ m ∉ st.completed_maneuvers := by
  unfold available_maneuvers
  rw [if_pos (by simp [hfixed])]
  simp [List.mem_filter]

/-- Fixed-mode candidates run out exactly when every pool member is
completed. -/
theorem available_eq_nil_iff (st : SessionState)
    (hfixed : st.session_mode = SessionMode.fixed) :
    available_maneuvers st = [] ↔
      ∀ m ∈ st.maneuvers, m ∈ st.completed_maneuvers := by
  unfold available_maneuvers
  rw [if_pos (by simp [hfixed])]
  simp [List.filter_eq_nil_iff]

/-- Indefinite-mode candidates: the whole pool, unconditionally. -/
theorem available_indefinite (st : SessionState)
    (hind : st.session_mode = SessionMode.indefinite) :
    available_maneuvers st = st.maneuvers := by
  unfold available_maneuvers
  rw [if_neg (by simp [hind])]

/-- With a nonempty pool and no remaining candidates in fixed mode, the
selector returns the terminal signal. -/
theorem select_maneuver_none (st : SessionState) (prob : Option ℚ) (r : ℚ)
    (i : ℕ) (hne : st.maneuvers ≠ [])
    (hfixed : st.session_mode = SessionMode.fixed)
    (hav : available_maneuvers st = []) :
    select_maneuver st prob r i = Except.ok none := by
  unfold select_maneuver
  rw [if_neg (by simp [hne]), if_pos (by simp [hfixed, hav])]

/-- With nonempty candidates the selector returns some candidate. -/
theorem select_maneuver_some (st : SessionState) (prob : Option ℚ) (r : ℚ)
    (i : ℕ) (hav : available_maneuvers st ≠ []) :
    ∃ m, select_maneuver st prob r i = Except.ok (some m)
      ∧ m ∈ available_maneuvers st := by
  have hne : st.maneuvers ≠ [] := by
    intro hnil
    apply hav
    unfold available_maneuvers
    rw [hnil]
    split <;> simp
  unfold select_maneuver
  rw [if_neg (by simp [hne]),
    if_neg (by simp [List.isEmpty_iff, hav])]
  by_cases h3 : (st.session_mode == SessionMode.fixed
      && st.emergency_mode == some EmergencyMode.all) = true
  · rw [if_pos h3]
    obtain ⟨a, ha, hm⟩ := choice_some _ i hav
    exact ⟨a, by rw [ha], hm⟩
  · rw [if_neg h3]
    cases prob with
    | none =>
      obtain ⟨a, ha, hm⟩ := choice_some (available_maneuvers st) i hav
      refine ⟨a, ?_, hm⟩
      show Except.ok (choice (available_maneuvers st) i)
        = Except.ok (some a)
      rw [ha]
    | some p =>
      obtain ⟨a, ha, hm⟩ :=
        select_with_probability_some (available_maneuvers st) p r i hav
      refine ⟨a, ?_, hm⟩
      show Except.ok (select_with_probability (available_maneuvers st) p r i)
        = Except.ok (some a)
      rw [ha]

/-- Completion bookkeeping does not change the session mode. -/
theorem mark_mode_eq (st : SessionState) (m : Maneuver) :
    (mark_maneuver_completed st m).session_mode = st.session_mode := by
  unfold mark_maneuver_completed
  split <;> rfl

/-- Completion bookkeeping never loses a completed maneuver. -/
theorem mark_completed_mono (st : SessionState) (m x : Maneuver)
    (h : x ∈ st.completed_maneuvers) :
    x ∈ (mark_maneuver_completed st m).completed_maneuvers := by
  unfold mark_maneuver_completed
  split
  · simp [h]
  · exact h

/-- In fixed mode the marked maneuver ends up completed. -/
theorem mark_self_completed (st : SessionState) (m : Maneuver)
    (hfixed : st.session_mode = SessionMode.fixed) :
    m ∈ (mark_maneuver_completed st m).completed_maneuvers := by
  unfold mark_maneuver_completed
  split
  · simp
  · next hcond =>
    rw [hfixed] at hcond
    simpa using hcond

/-- A sequence of completion markings keeps the pool and mode intact. -/
theorem apply_marks_preserves (l : List Maneuver) (st : SessionState) :
    (apply_ops st (l.map SessionOp.mark)).maneuvers = st.maneuvers
    ∧ (apply_ops st (l.map SessionOp.mark)).session_mode
        = st.session_mode := by
  induction l generalizing st with
  | nil => exact ⟨rfl, rfl⟩
  | cons x xs ih =>
    have hstep : apply_ops st ((x :: xs).map SessionOp.mark)
        = apply_ops (mark_maneuver_completed st x)
            (xs.map SessionOp.mark) := rfl
    rw [hstep]
    obtain ⟨h1, h2⟩ := ih (mark_maneuver_completed st x)
    rw [h1, h2, mark_maneuvers_eq, mark_mode_eq]
    exact ⟨rfl, rfl⟩

/-- Completed maneuvers survive a sequence of completion markings. -/
theorem apply_marks_mono (l : List Maneuver) (st : SessionState)
    (x : Maneuver) (h : x ∈ st.completed_maneuvers) :
    x ∈ (apply_ops st (l.map SessionOp.mark)).completed_maneuvers := by
  induction l generalizing st with
  | nil => exact h
  | cons y ys ih =>
    exact ih (mark_maneuver_completed st y) (mark_completed_mono st y x h)

/-- In fixed mode, marking every member of `l` completes each of them. -/
theorem apply_marks_completes (l : List Maneuver) (st : SessionState)
    (hfixed : st.session_mode = SessionMode.fixed) :
    ∀ x ∈ l, x ∈ (apply_ops st (l.map SessionOp.mark)).completed_maneuvers := by
  induction l generalizing st with
  | nil => intro x hx; cases hx
  | cons y ys ih =>
    intro x hx
    have hstep : apply_ops st ((y :: ys).map SessionOp.mark)
        = apply_ops (mark_maneuver_completed st y)
            (ys.map SessionOp.mark) := rfl
    rw [hstep]
    rcases List.mem_cons.mp hx with rfl | hxs
    · exact apply_marks_mono ys (mark_maneuver_completed st x) x
        (mark_self_completed st x hfixed)
    · exact ih (mark_maneuver_completed st y)
        (by rw [mark_mode_eq]; exact hfixed) x hxs

/-- C5: with a nonempty active pool, in fixed mode the selector's
candidate set is `active_pool` minus the completed set — it returns the
terminal signal exactly when every pool member is completed, any selected
maneuver is an uncompleted pool member, and after every pool member is
resolved (the completion bookkeeping shared by complete, review and skip)
the next selection returns the terminal signal — while in indefinite mode
it always returns some member of `active_pool` (repeats allowed). -/
theorem C5_candidate_set_and_exhaustion (st : SessionState)
    (prob : Option ℚ) (r : ℚ) (i : ℕ) (hne : st.maneuvers ≠ []) :
    (st.session_mode = SessionMode.fixed →
      ((select_maneuver st prob r i = Except.ok none ↔
          ∀ m ∈ st.maneuvers, m ∈ st.completed_maneuvers)
        ∧ (∀ m, select_maneuver st prob r i = Except.ok (some m) →
            m ∈ st.maneuvers ∧ m ∉ st.completed_maneuvers)))
    ∧ (st.session_mode = SessionMode.indefinite →
        ∃ m, select_maneuver st prob r i = Except.ok (some m)
          ∧ m ∈ st.maneuvers)
    ∧ (st.session_mode = SessionMode.fixed →
        select_maneuver (apply_ops st (st.maneuvers.map SessionOp.mark))
          prob r i = Except.ok none) := by
  refine ⟨fun hfixed => ⟨?_, ?_⟩, fun hind => ?_, fun hfixed => ?_⟩
  · constructor
    · intro hnone
      by_cases hav : available_maneuvers st = []
      · exact (available_eq_nil_iff st hfixed).mp hav
      · obtain ⟨m, hm, _⟩ := select_maneuver_some st prob r i hav
        rw [hm] at hnone
        cases hnone
    · intro hall
      exact select_maneuver_none st prob r i hne hfixed
        ((available_eq_nil_iff st hfixed).mpr hall)
  · intro m hm
    by_cases hav : available_maneuvers st = []
    · rw [select_maneuver_none st prob r i hne hfixed hav] at hm
      cases hm
    · obtain ⟨m2, hm2, hmem⟩ := select_maneuver_some st prob r i hav
      rw [hm2] at hm
      cases hm
      exact (mem_available_fixed st hfixed _).mp hmem
  · have hav : available_maneuvers st ≠ [] := by
      rw [available_indefinite st hind]
      exact hne
    obtain ⟨m, hm, hmem⟩ := select_maneuver_some st prob r i hav
    rw [available_indefinite st hind] at hmem
    exact ⟨m, hm, hmem⟩
  · obtain ⟨hpool, hmode⟩ := apply_marks_preserves st.maneuvers st
    have hfixed2 : (apply_ops st (st.maneuvers.map SessionOp.mark)).session_mode
        = SessionMode.fixed := by rw [hmode]; exact hfixed
    apply select_maneuver_none _ prob r i (by rw [hpool]; exact hne) hfixed2
    rw [available_eq_nil_iff _ hfixed2, hpool]
    exact apply_marks_completes st.maneuvers st hfixed

/-- C5 witness: the fixed-mode conjuncts evaluated on the concrete
remaining-count scenario state (nonempty pool, one completed member). -/
theorem C5_candidate_set_and_exhaustion_witness :
    remainingScenarioRandom.maneuvers ≠ []
    ∧ (remainingScenarioRandom.session_mode = SessionMode.fixed →
        select_maneuver
          (apply_ops remainingScenarioRandom
            (remainingScenarioRandom.maneuvers.map SessionOp.mark))
          (some 25) (1 / 2) 0 = Except.ok none) :=
  ⟨by decide,
   (C5_candidate_set_and_exhaustion remainingScenarioRandom (some 25)
      (1 / 2) 0 (by decide)).2.2⟩

/-- C3: with a nonempty candidate set, `select_maneuver` implements the
spec's choice rule (`spec_choice` over `spec_candidates`): a uniform draw
from the candidates whenever the session is fixed with
`emergency_mode == all` or `emergency_probability` is unset, and
otherwise the partition-based weighted draw with uniform fallback when a
partition is empty and threshold `emergency_probability/100` on the
uniform value `r`. -/
theorem C3_selector_refines_spec (st : SessionState) (prob : Option ℚ)
    (r : ℚ) (i : ℕ) (hav : spec_candidates st ≠ []) :
    select_maneuver st prob r i =
      Except.ok (spec_choice st.session_mode st.emergency_mode prob
        (spec_candidates st) r i) := by
  have havail : available_maneuvers st = spec_candidates st := rfl
  have hne : st.maneuvers ≠ [] := by
    intro hnil
    apply hav
    unfold spec_candidates
    rw [hnil]
    split <;> simp
  unfold select_maneuver
  rw [if_neg (by simp [hne]),
    if_neg (by rw [havail]; simp [List.isEmpty_iff, hav])]
  unfold spec_choice
  by_cases h3 : (st.session_mode == SessionMode.fixed
      && st.emergency_mode == some EmergencyMode.all) = true
  · rw [if_pos h3, if_pos (by simp [h3])]
    rfl
  · rw [if_neg h3]
    cases prob with
    | none =>
      rw [if_pos (by simp)]
      rfl
    | some p =>
      rw [if_neg (by simp [h3])]
      rfl

/-- C3 witness: the refinement evaluated on the concrete fixed-mode
scenario state with random emergencies and a configured probability. -/
theorem C3_selector_refines_spec_witness :
    select_maneuver remainingScenarioRandom (some 25) (1 / 2) 0 =
      Except.ok (spec_choice remainingScenarioRandom.session_mode
        remainingScenarioRandom.emergency_mode (some 25)
        (spec_candidates remainingScenarioRandom) (1 / 2) 0) :=
  C3_selector_refines_spec remainingScenarioRandom (some 25) (1 / 2) 0
    (by decide)

/-- C6: constructing a `Configuration` from a raw attribute map fails
exactly when the maneuvers-source key is absent, exactly one interval
bound is given, the minimum bound exceeds the maximum, or
`emergency_probability` is present and non-numeric or outside [0,100];
and on success `is_manual_mode` holds exactly when both interval bounds
were absent. -/
theorem C6_configuration_validation (c : RawConfig) :
    ((∃ cfg, validate_and_set c = Except.ok cfg) ↔
      (c.maneuvers_file ≠ none
        ∧ c.interval_min_sec.isSome = c.interval_max_sec.isSome
        ∧ (∀ mn mx, c.interval_min_sec = some mn →
            c.interval_max_sec = some mx → mn ≤ mx)
        ∧ (∀ v, c.emergency_probability = some v →
            ∃ p, v = ConfigValue.num p ∧ 0 ≤ p ∧ p ≤ 100)))
    ∧ (∀ cfg, validate_and_set c = Except.ok cfg →
        (cfg.is_manual_mode = true ↔
          (c.interval_min_sec = none ∧ c.interval_max_sec = none))) := by
  obtain ⟨mf, mn, mx, s1, s2, s3, ep⟩ := c
  cases mf with
  | none => simp [validate_and_set]
  | some s =>
    cases mn with
    | some a =>
      cases mx with
      | none => simp [validate_and_set]
      | some b =>
        by_cases hab : a > b
        · constructor
          · constructor
            · rintro ⟨cfg, hcfg⟩
              simp [validate_and_set, hab] at hcfg
            · rintro ⟨-, -, hle, -⟩
              exact absurd (hle a b rfl rfl) (not_le.mpr hab)
          · intro cfg hcfg
            simp [validate_and_set, hab] at hcfg
        · cases ep with
          | none =>
            simp [validate_and_set, hab, check_emergency_probability,
              Except.map, Configuration.is_manual_mode, le_of_not_lt]
          | some w =>
            cases w with
            | text t =>
              constructor
              · constructor
                · rintro ⟨cfg, hcfg⟩
                  simp [validate_and_set, hab, Except.map,
                    check_emergency_probability] at hcfg
                · rintro ⟨-, -, -, hprob⟩
                  obtain ⟨p, hp, -, -⟩ := hprob (ConfigValue.text t) rfl
                  cases hp
              · intro cfg hcfg
                simp [validate_and_set, hab, Except.map,
                  check_emergency_probability] at hcfg
            | num p =>
              by_cases hp : p < 0 ∨ p > 100
              · constructor
                · constructor
                  · rintro ⟨cfg, hcfg⟩
                    simp [validate_and_set, hab, Except.map,
                      check_emergency_probability, hp] at hcfg
                  · rintro ⟨-, -, -, hprob⟩
                    obtain ⟨p2, hp2, h0, h100⟩ :=
                      hprob (ConfigValue.num p) rfl
                    cases hp2
                    rcases hp with h | h
                    · exact absurd h0 (not_le.mpr h)
                    · exact absurd h100 (not_le.mpr h)
                · intro cfg hcfg
                  simp [validate_and_set, hab, Except.map,
                    check_emergency_probability, hp] at hcfg
              · push_neg at hp
                simp [validate_and_set, hab, check_emergency_probability,
                  not_or.mpr (And.intro (not_lt.mpr hp.1) (not_lt.mpr hp.2)),
                  Except.map, Configuration.is_manual_mode, le_of_not_lt,
                  hp.1, hp.2]
    | none =>
      cases mx with
      | some b => simp [validate_and_set]
      | none =>
        cases ep with
        | none =>
          simp [validate_and_set, check_emergency_probability,
            Except.map, Configuration.is_manual_mode]
        | some w =>
          cases w with
          | text t =>
            constructor
            · constructor
              · rintro ⟨cfg, hcfg⟩
                simp [validate_and_set, Except.map,
                  check_emergency_probability] at hcfg
              · rintro ⟨-, -, -, hprob⟩
                obtain ⟨p, hp, -, -⟩ := hprob (ConfigValue.text t) rfl
                cases hp
            · intro cfg hcfg
              simp [validate_and_set, Except.map,
                check_emergency_probability] at hcfg
          | num p =>
            by_cases hp : p < 0 ∨ p > 100
            · constructor
              · constructor
                · rintro ⟨cfg, hcfg⟩
                  simp [validate_and_set, Except.map,
                    check_emergency_probability, hp] at hcfg
                · rintro ⟨-, -, -, hprob⟩
                  obtain ⟨p2, hp2, h0, h100⟩ :=
                    hprob (ConfigValue.num p) rfl
                  cases hp2
                  rcases hp with h | h
                  · exact absurd h0 (not_le.mpr h)
                  · exact absurd h100 (not_le.mpr h)
              · intro cfg hcfg
                simp [validate_and_set, Except.map,
                  check_emergency_probability, hp] at hcfg
            · push_neg at hp
              simp [validate_and_set, check_emergency_probability,
                not_or.mpr (And.intro (not_lt.mpr hp.1) (not_lt.mpr hp.2)),
                Except.map, Configuration.is_manual_mode, hp.1, hp.2]

/-- C6 witness: validation evaluated on a concrete manual-mode map with
a valid probability. -/
theorem C6_configuration_validation_witness :
    validate_and_set ⟨some "maneuvers.json", none, none, none, none,
        none, some (ConfigValue.num 25)⟩
      = Except.ok ⟨"maneuvers.json", none, none, true, true, true, some 25⟩
    ∧ ((⟨"maneuvers.json", none, none, true, true, true, some 25⟩ :
          Configuration).is_manual_mode = true ↔
        ((none : Option ℚ) = none ∧ (none : Option ℚ) = none)) :=
  ⟨by decide,
   (C6_configuration_validation ⟨some "maneuvers.json", none, none, none,
      none, none, some (ConfigValue.num 25)⟩).2
     ⟨"maneuvers.json", none, none, true, true, true, some 25⟩ (by decide)⟩

/-- Reading back the serialized form of one entry restores it. -/
theorem parse_entry_fields (e : HistoryEntry) :
    parse_entry (entry_fields e) = some e := by
  obtain ⟨ts, mv, ty, st, ph⟩ := e
  cases ph <;> rfl

/-- Reading back a saved history restores it entry for entry. -/
theorem load_save_round_trip (h : List HistoryEntry) :
    load_history (save_history h) = some h := by
  induction h with
  | nil => rfl
  | cons e rest ih =>
    have ih2 : load_history (save_history rest) = some rest := ih
    simp only [save_history, List.map_cons] at ih2 ⊢
    show load_history (entry_fields e :: List.map entry_fields rest)
      = some (e :: rest)
    rw [load_history, parse_entry_fields, ih2]

/-- C7: replaying any sequence of `record()` calls on a fresh store and
reloading the persisted file yields a structurally identical history —
same entries in the same order with the same fields; in particular the
spec's two-call example reloads to a 2-element history whose second entry
carries phase "Phase 1". -/
theorem C7_history_round_trip :
    (∀ calls : List RecordCall,
      load_history (save_history (replay calls)) = some (replay calls))
    ∧ (replay exampleCalls).length = 2
    ∧ load_history (save_history (replay exampleCalls))
        = some (replay exampleCalls)
    ∧ ((replay exampleCalls).get? 1).map HistoryEntry.phase
        = some (some "Phase 1") := by
  exact ⟨fun calls => load_save_round_trip _, by decide,
    load_save_round_trip _, by decide⟩

/-- C9: for a maneuver that has phases, the "mark complete" response `c`
is never among the offered options while the current phase is none (the
interface offers "next" `n` instead), and advancing always presents some
phase, after which `c` is offered. -/
theorem C9_no_complete_before_phase (m : Maneuver) (h : m.phases ≠ []) :
    "c" ∉ offered_options m none
    ∧ (∀ i : ℕ, ∃ p, select_phase m i = some p
        ∧ "c" ∈ offered_options m (some p)) := by
  have hhp : has_phases m = true := by
    simp [has_phases, List.isEmpty_iff, h]
  constructor
  · simp [offered_options, hhp, get_user_response_options]
  · intro i
    obtain ⟨p, hp, -⟩ := choice_some m.phases i h
    refine ⟨p, ?_, ?_⟩
    · unfold select_phase
      rw [if_neg (by simp [List.isEmpty_iff, h])]
      exact hp
    · simp [offered_options, hhp, get_user_response_options]

/-- C9 witness: evaluated on the concrete two-phase maneuver. -/
theorem C9_no_complete_before_phase_witness :
    engineFire.phases ≠ []
    ∧ ("c" ∉ offered_options engineFire none
      ∧ (∀ i : ℕ, ∃ p, select_phase engineFire i = some p
          ∧ "c" ∈ offered_options engineFire (some p))) :=
  ⟨by decide, C9_no_complete_before_phase engineFire (by decide)⟩

/-- C10: recording a maneuver that lacks a "type" attribute appends an
entry whose type field is the literal "normal", and the entry's phase
field is present exactly when a phase was supplied to the call (carrying
that phase's name). -/
theorem C10_record_defaults_type_normal (history : List HistoryEntry)
    (ts : String) (m : Maneuver) (status : String) (ph : Option Phase)
    (h : m.mtype = none) :
    record_maneuver history ts m status ph
        = history ++ [mk_entry ts m status ph]
    ∧ (mk_entry ts m status ph).mtype = "normal"
    ∧ ((mk_entry ts m status ph).phase.isSome ↔ ph.isSome)
    ∧ (∀ p, ph = some p → (mk_entry ts m status ph).phase = some p.name) := by
  refine ⟨rfl, by simp [mk_entry, h], ?_, ?_⟩
  · cases ph <;> simp [mk_entry]
  · rintro p rfl
    rfl

/-- C10 witness: a phase-carrying record of the concrete type-less
maneuver. -/
theorem C10_record_defaults_type_normal_witness :
    noTypeManeuver.mtype = none
    ∧ (record_maneuver [] "2024-01-01T12:00:00" noTypeManeuver "completed"
          (some phase1)
        = [] ++ [mk_entry "2024-01-01T12:00:00" noTypeManeuver "completed"
            (some phase1)]
      ∧ (mk_entry "2024-01-01T12:00:00" noTypeManeuver "completed"
          (some phase1)).mtype = "normal"
      ∧ ((mk_entry "2024-01-01T12:00:00" noTypeManeuver "completed"
          (some phase1)).phase.isSome ↔ (some phase1).isSome)
      ∧ (∀ p, some phase1 = some p →
          (mk_entry "2024-01-01T12:00:00" noTypeManeuver "completed"
            (some phase1)).phase = some p.name)) :=
  ⟨by decide,
   C10_record_defaults_type_normal [] "2024-01-01T12:00:00" noTypeManeuver
     "completed" (some phase1) (by decide)⟩

end ChairFlying
